import Mathlib

/-!
Verification development for the blueapi task worker.

The repository's `src/` tree contains the full source of
`blueapi/utils/aio_threading.py` (embedded below as `ConcurrentDone`,
`AioFutureState` and `transcribe`), the service-interface test suite
`tests/service/test_interface.py`, and re-export/example modules.  The
worker core itself (registry, queue, state machine, control channel) is
not under `src/`; spec sections 2-5 and 8 describe it and the test suite
pins the service-interface dispatch.  Those parts are modelled from the
spec, as marked in each doc comment.
-/

namespace Blueapi

/-- A task: a plan name plus a mapping of parameter name to value
(spec section 3; `blueapi.worker.task.Task` as used in the tests). -/
structure Task where
  name : String
  params : List (String × String) := []
deriving Repr, DecidableEq

/-- A `TrackableTask`: a `Task` wrapped with a unique id and mutable tracking
fields (spec section 3; field names follow `TrackableTask` as used in
`tests/service/test_interface.py`).  Ids are modelled as naturals assigned
from a fresh counter. -/
structure TrackableTask where
  task_id : Nat
  task : Task
  is_complete : Bool := false
  is_pending : Bool := true
  errors : List String := []
deriving Repr, DecidableEq

/-- Modelled from the spec: WorkerState enumeration (spec section 3),
the five states of the Worker State Machine. -/
inductive WorkerState where
  | Idle
  | Running
  | Pausing
  | Paused
  | Stopping
deriving Repr, DecidableEq

/-- Modelled from the spec: a WorkerEvent snapshot (spec section 3): the
current WorkerState, the affected task id if any, and an optional error
payload. -/
structure WorkerEvent where
  state : WorkerState
  task_id : Option Nat := none
  error : Option String := none
deriving Repr, DecidableEq

/-- The error kinds surfaced by registry / control-channel operations
(spec section 7) together with `InitialisationException` from the service
interface (`tests/service/test_interface.py`). -/
inductive ErrKind where
  | NotFound
  | InvalidState
  | NoActiveTask
  | InitialisationException
deriving Repr, DecidableEq

/-- Modelled from the spec: the worker core's state (spec section 2):
Task Registry (ordered store), Task Queue (FIFO of pending ids), Worker
State Machine value plus active task id, the published event log, the
fresh-id counter, and the log of pause flags signalled to the executor. -/
structure Worker where
  registry : List TrackableTask := []
  queue : List Nat := []
  state : WorkerState := .Idle
  activeTask : Option Nat := none
  nextId : Nat := 0
  events : List WorkerEvent := []
  executorPauseSignals : List Bool := []
deriving Repr, DecidableEq

/-- The initial worker: Idle, empty registry and queue. -/
def freshWorker : Worker := {}

/-- Modelled from the spec: `submit(task) -> id` (spec section 4.1): assigns
a fresh unique id, stores a TrackableTask with `is_pending = true`,
`is_complete = false`, `errors = []`, appends the id to the Task Queue,
and performs no execution (no state transition, no event). -/
def submit_task (w : Worker) (t : Task) : Nat × Worker :=
  let i := w.nextId
  (i, { w with
          registry := w.registry ++ [{ task_id := i, task := t }],
          queue := w.queue ++ [i],
          nextId := w.nextId + 1 })

/-- Submit a whole list of tasks in order. -/
def submitAll (w : Worker) (ts : List Task) : Worker :=
  ts.foldl (fun w t => (submit_task w t).2) w

/-- Modelled from the spec: `getById(id)` (spec section 4.1): the current
TrackableTask snapshot, or NotFound. -/
def get_task_by_id (w : Worker) (i : Nat) : Except ErrKind TrackableTask :=
  match w.registry.find? (fun t => t.task_id == i) with
  | some t => .ok t
  | none => .error .NotFound

/-- Derived task status (spec section 4.1): Pending / Running / Complete,
computed from the tracking fields and whether the id equals the active
task (`TaskStatusEnum` in the tests). -/
inductive TaskStatusEnum where
  | Pending
  | Running
  | Complete
deriving Repr, DecidableEq

/-- Modelled from the spec: the derived status of a stored task
(spec section 4.1). -/
def taskStatus (w : Worker) (t : TrackableTask) : TaskStatusEnum :=
  if w.activeTask == some t.task_id then .Running
  else if t.is_complete then .Complete
  else .Pending

/-- Modelled from the spec: `clear(id)` (spec section 4.1): removes a task
whose status is Pending or Complete (returning the id, as
`test_clear_task` shows); fails with InvalidState if the task is currently
active, with NotFound if the id is unknown. -/
def clear_task (w : Worker) (i : Nat) : Except ErrKind (Nat × Worker) :=
  match w.registry.find? (fun t => t.task_id == i) with
  | none => .error .NotFound
  | some _ =>
    if w.activeTask == some i then .error .InvalidState
    else .ok (i, { w with
                     registry := w.registry.filter (fun t => t.task_id != i),
                     queue := w.queue.filter (fun j => j != i) })

/-- The list of TrackableTasks created by submitting `ts` with ids counted
from `b`: the shape `submit_task` gives the registry. -/
def mkTasks (b : Nat) : List Task → List TrackableTask
  | [] => []
  | t :: ts => { task_id := b, task := t } :: mkTasks (b + 1) ts

/-- `submitAll` appends `mkTasks` entries to the registry, the fresh ids to
the queue, bumps the counter, and touches nothing else. -/
theorem submitAll_spec (ts : List Task) : ∀ w : Worker,
    submitAll w ts =
      { w with
          registry := w.registry ++ mkTasks w.nextId ts,
          queue := w.queue ++ List.range' w.nextId ts.length,
          nextId := w.nextId + ts.length } := by
  induction ts with
  | nil => intro w; simp [submitAll, mkTasks]
  | cons t ts ih =>
    intro w
    have step : submitAll w (t :: ts) = submitAll (submit_task w t).2 ts := rfl
    rw [step, ih]
    simp [submit_task, mkTasks, List.range'_succ]
    omega

/-- The ids of `mkTasks b ts` are exactly `range' b ts.length`. -/
theorem mkTasks_ids (ts : List Task) : ∀ b : Nat,
    (mkTasks b ts).map (fun t => t.task_id) = List.range' b ts.length := by
  induction ts with
  | nil => intro b; rfl
  | cons t ts ih => intro b; simp [mkTasks, List.range'_succ, ih]

/-- Every member of `range' b n` is at least `b`. -/
theorem mem_range'_le (n : Nat) : ∀ b x : Nat, x ∈ List.range' b n → b ≤ x := by
  induction n with
  | zero => intro b x h; simp [List.range'] at h
  | succ n ih =>
    intro b x h
    rw [List.range'_succ] at h
    rcases List.mem_cons.mp h with h | h
    · omega
    · have := ih (b + 1) x h; omega

/-- `range' b n` is strictly increasing. -/
theorem pairwise_lt_range' (n : Nat) : ∀ b : Nat,
    List.Pairwise (· < ·) (List.range' b n) := by
  induction n with
  | zero => intro b; simp [List.range']
  | succ n ih =>
    intro b
    rw [List.range'_succ]
    exact List.Pairwise.cons
      (fun x hx => lt_of_lt_of_le (Nat.lt_succ_self b) (mem_range'_le n (b + 1) x hx))
      (ih (b + 1))

/-- Modelled from the spec: marking a stored task complete
(spec section 4.3): `is_complete := true`, `is_pending := false`, with the
given error list. -/
def markComplete (reg : List TrackableTask) (i : Nat) (errs : List String) :
    List TrackableTask :=
  reg.map (fun t =>
    if t.task_id == i then
      { t with is_complete := true, is_pending := false, errors := errs }
    else t)

/-- Modelled from the spec: worker-level `begin_task` (spec section 4.4):
fails with InvalidState unless the worker is Idle; the addressed task must
exist and currently be Pending (else NotFound / InvalidState); on success
removes the id from wherever it sits in the queue, marks it active,
transitions to Running and publishes the Running event. -/
def begin_task (w : Worker) (i : Nat) : Except ErrKind Worker :=
  if w.state != .Idle then .error .InvalidState
  else
    match w.registry.find? (fun t => t.task_id == i) with
    | none => .error .NotFound
    | some t =>
      if taskStatus w t != .Pending then .error .InvalidState
      else .ok { w with
                   queue := w.queue.filter (fun j => j != i),
                   state := .Running,
                   activeTask := some i,
                   events := w.events ++ [{ state := .Running, task_id := some i }] }

/-- The request body of the interface-level begin operation
(`WorkerTask` in `tests/service/test_interface.py`): an optional task id. -/
structure WorkerTask where
  task_id : Option Nat := none
deriving Repr, DecidableEq

/-- Interface-level `begin_task`, behaviour pinned by `test_begin_task` and
`test_begin_task_no_task_id` in `src/tests/service/test_interface.py`:
when the request carries a task id the worker's `begin_task` is called
with it; when the id is absent the worker is not called at all; either
way the request is echoed back on success. -/
def interface_begin_task (w : Worker) (wt : WorkerTask) :
    Except ErrKind (WorkerTask × Worker) :=
  match wt.task_id with
  | none => .ok (wt, w)
  | some i => (begin_task w i).map (fun w2 => (wt, w2))

/-- Modelled from the spec: `pause(immediate)` (spec section 4.4): requires
Running, in which case the flag is signalled to the executor unchanged and
the worker settles in Paused (publishing the event); an error-free no-op
when already Paused; InvalidState otherwise. -/
def pause (w : Worker) (defer : Bool) : Except ErrKind Worker :=
  match w.state with
  | .Running =>
    .ok { w with
            state := .Paused,
            executorPauseSignals := w.executorPauseSignals ++ [defer],
            events := w.events ++ [{ state := .Paused, task_id := w.activeTask }] }
  | .Paused => .ok w
  | _ => .error .InvalidState

/-- Modelled from the spec: `cancelActive(fail, reason)` (spec section 4.4):
requires an active task; marks it complete with `errors = [reason]` when
`fail` and `errors = []` otherwise, clears the active id, transitions to
Idle (publishing the event) and returns the cancelled task's id; fails
with NoActiveTask when nothing is active. -/
def cancel_active_task (w : Worker) (fail : Bool) (reason : String) :
    Except ErrKind (Nat × Worker) :=
  match w.activeTask with
  | none => .error .NoActiveTask
  | some i =>
    .ok (i, { w with
                state := .Idle,
                activeTask := none,
                registry := markComplete w.registry i (if fail then [reason] else []),
                events := w.events ++
                  [{ state := .Idle, task_id := some i,
                     error := if fail then some reason else none }] })

/-- Modelled from the spec: the Plan Executor's reported outcome
(spec section 6): Success or Failure with detail.  (Cancellation is driven
through `cancel_active_task`, not through the loop.) -/
inductive Outcome where
  | success
  | failure (detail : String)
deriving Repr, DecidableEq

/-- The errors recorded on the TrackableTask for an outcome
(spec section 4.3): empty on success. -/
def outcomeErrors : Outcome → List String
  | .success => []
  | .failure d => [d]

/-- The error payload of the completion WorkerEvent for an outcome. -/
def outcomeError : Outcome → Option String
  | .success => none
  | .failure d => some d

/-- Modelled from the spec: one full, uninterrupted cycle of the Execution
Loop (spec section 4.3): if Idle with a non-empty queue, dequeue the head
id, transition to Running (publishing that event), drive the Plan Executor
on that task's Task to completion, mark the task complete with the
outcome's errors, clear the active id, and settle back in Idle (publishing
that event).  `exec` is the external executor.  When the dequeued id is
unknown (unreachable under the registry invariant) the executor has
nothing to run and the cycle completes without errors. -/
def runOne (exec : Task → Outcome) (w : Worker) : Worker :=
  match w.queue with
  | [] => w
  | i :: rest =>
    if w.state == .Idle then
      let outcome :=
        match w.registry.find? (fun t => t.task_id == i) with
        | some t => exec t.task
        | none => .success
      { w with
          queue := rest,
          state := .Idle,
          activeTask := none,
          registry := markComplete w.registry i (outcomeErrors outcome),
          events := w.events ++
            [{ state := .Running, task_id := some i },
             { state := .Idle, task_id := some i, error := outcomeError outcome }] }
    else w

/-- Iterate the Execution Loop `n` cycles. -/
def runN (exec : Task → Outcome) : Nat → Worker → Worker
  | 0, w => w
  | n + 1, w => runN exec n (runOne exec w)

/-- An executor for which every plan succeeds. -/
def execSuccess : Task → Outcome := fun _ => .success

/-- The event trace the loop owes a list of task ids: for each id in order,
exactly one Running-entry event and one Idle-return event. -/
def fifoTrace (ids : List Nat) : List WorkerEvent :=
  ids.flatMap (fun i =>
    [{ state := .Running, task_id := some i },
     { state := .Idle, task_id := some i }])

/-- Modelled from the spec: the service interface's process-global worker
handle with an explicit start/stop lifecycle (spec section 9; behaviour
pinned by `test_start_worker_raises_if_already_started`,
`test_stop_worker_raises_if_already_started` and
`test_exception_if_used_before_started`). -/
structure ServiceContext where
  worker : Option Worker := none
deriving Repr, DecidableEq

/-- Modelled from the spec: `start_worker` fails with
InitialisationException when a worker is already started, otherwise
installs a fresh worker. -/
def start_worker (c : ServiceContext) : Except ErrKind ServiceContext :=
  match c.worker with
  | some _ => .error .InitialisationException
  | none => .ok { worker := some freshWorker }

/-- Modelled from the spec: `stop_worker` fails with
InitialisationException when no worker has been started. -/
def stop_worker (c : ServiceContext) : Except ErrKind ServiceContext :=
  match c.worker with
  | none => .error .InitialisationException
  | some _ => .ok { worker := none }

/-- Modelled from the spec: the query `get_active_task` fails with
InitialisationException when no worker has been started. -/
def get_active_task (c : ServiceContext) : Except ErrKind (Option Nat) :=
  match c.worker with
  | none => .error .InitialisationException
  | some w => .ok w.activeTask

/-- A completed `concurrent.futures.Future` as observed by a done-callback
(`src/src/blueapi/utils/aio_threading.py`): the exception it holds, if
any, and the value it holds (which may be `None`, modelled as `none`).
`V` is the result type, `E` the exception type. -/
structure ConcurrentDone (V E : Type) where
  exc : Option E
  res : Option V
deriving Repr, DecidableEq

/-- Python semantics of `future.result()` on a done concurrent future: the
held exception is re-raised when present, otherwise the value (possibly
`None`) is returned. -/
def ConcurrentDone.resultCall {V E : Type} (f : ConcurrentDone V E) :
    Except E (Option V) :=
  match f.exc with
  | some e => .error e
  | none => .ok f.res

/-- The state of the `asyncio.Future` produced by
`concurrent_future_to_aio_future`: pending, or resolved with a result or
with an exception. -/
inductive AioFutureState (V E : Type) where
  | pending
  | result (v : V)
  | exception (e : E)
deriving Repr, DecidableEq

/-- `aio_future.set_result(v)`: resolves a pending future.  On an already
resolved future Python raises InvalidStateError; that call site is
unreachable here because the done-callback runs once on a fresh pending
future, so the resolved cases are left unchanged. -/
def AioFutureState.setResult {V E : Type} (s : AioFutureState V E) (v : V) :
    AioFutureState V E :=
  match s with
  | .pending => .result v
  | s => s

/-- `aio_future.set_exception(e)`: resolves a pending future with an
exception (same InvalidStateError caveat as `setResult`). -/
def AioFutureState.setException {V E : Type} (s : AioFutureState V E) (e : E) :
    AioFutureState V E :=
  match s with
  | .pending => .exception e
  | s => s

/-- The `transcribe` callback of `concurrent_future_to_aio_future`
(`src/src/blueapi/utils/aio_threading.py` lines 13-19), run with the done
concurrent future against the current state of the asyncio future:

    ex = future.exception()
    if ex is not None:
        aio_future.set_exception(ex)
    rs = future.result()
    if rs is not None:
        aio_future.set_result(rs)

Returns the asyncio future's final state together with the exception that
escapes `transcribe` itself, if any (`future.result()` re-raises the held
exception; the escape happens after `set_exception` has already run). -/
def transcribe {V E : Type} (future : ConcurrentDone V E)
    (aio_future : AioFutureState V E) : AioFutureState V E × Option E :=
  let afterExc :=
    match future.exc with
    | some e => aio_future.setException e
    | none => aio_future
  match future.resultCall with
  | .error e => (afterExc, some e)
  | .ok none => (afterExc, none)
  | .ok (some v) => (afterExc.setResult v, none)

/-! ## Helper lemmas -/

/-- `find?` skips a prefix on which the predicate is everywhere false. -/
theorem find?_append_right {α : Type} (p : α → Bool) (l l2 : List α)
    (h : ∀ x ∈ l, p x = false) : (l ++ l2).find? p = l2.find? p := by
  induction l with
  | nil => rfl
  | cons a l ih =>
    have ha : p a = false := h a (List.mem_cons_self a l)
    rw [List.cons_append, List.find?_cons, ha]
    exact ih (fun x hx => h x (List.mem_cons_of_mem a hx))

/-- Any surviving entry of `markComplete reg i errs` that carries id `i` is
complete with exactly the recorded errors. -/
theorem markComplete_mem (reg : List TrackableTask) (i : Nat) (errs : List String) :
    ∀ t ∈ markComplete reg i errs, t.task_id = i →
      t.is_complete = true ∧ t.errors = errs := by
  intro t ht hid
  simp only [markComplete, List.mem_map] at ht
  obtain ⟨t0, ht0, heq⟩ := ht
  by_cases h : t0.task_id = i
  · simp [h] at heq
    rw [← heq]
    exact ⟨rfl, rfl⟩
  · simp [h] at heq
    rw [← heq] at hid
    exact absurd hid h

/-! ## Claims about the future-bridging code (real source:
`src/src/blueapi/utils/aio_threading.py`) -/

/-- C5: a concurrent future that completed with exception `None` and result
`None` leaves the asyncio future untouched: `transcribe` resolves it with
neither a result nor an exception, raises nothing itself, and since the
done-callback is the only writer the asyncio future never completes. -/
theorem C5_silent_drop {V E : Type} (future : ConcurrentDone V E)
    (hexc : future.exc = none) (hres : future.res = none) :
    transcribe future .pending = (.pending, none) := by
  simp [transcribe, ConcurrentDone.resultCall, hexc, hres]

/-- C5 witness: the concrete dropped outcome. -/
theorem C5_silent_drop_witness :
    ({ exc := none, res := none } : ConcurrentDone Nat String).exc = none ∧
    ({ exc := none, res := none } : ConcurrentDone Nat String).res = none ∧
    transcribe ({ exc := none, res := none } : ConcurrentDone Nat String) .pending =
      (.pending, none) :=
  ⟨rfl, rfl, C5_silent_drop { exc := none, res := none } rfl rfl⟩

/-- C9: a concurrent future that completed with a non-`None` exception makes
`transcribe` resolve the asyncio future with exactly that exception; the
subsequent `future.result()` call re-raises it, so the `set_result` branch
is never reached and no result is additionally set. -/
theorem C9_exception_only {V E : Type} (future : ConcurrentDone V E) (e : E)
    (hexc : future.exc = some e) :
    transcribe future .pending = (.exception e, some e) := by
  simp [transcribe, ConcurrentDone.resultCall, hexc, AioFutureState.setException]

/-- C9 witness: a concrete failed future. -/
theorem C9_exception_only_witness :
    ({ exc := some "boom", res := none } : ConcurrentDone Nat String).exc = some "boom" ∧
    transcribe ({ exc := some "boom", res := none } : ConcurrentDone Nat String) .pending =
      (.exception "boom", some "boom") :=
  ⟨rfl, C9_exception_only { exc := some "boom", res := none } "boom" rfl⟩

/-! ## Claims about the Task Registry -/

/-- C1: after any sequence of submissions the registry holds pairwise
distinct ids, and the ids appear in strictly increasing submission order
(an earlier submission's id precedes a later one's). -/
theorem C1_ids_unique_ordered (ts : List Task) :
    ((submitAll freshWorker ts).registry.map (fun t => t.task_id)).Nodup ∧
    List.Pairwise (· < ·)
      ((submitAll freshWorker ts).registry.map (fun t => t.task_id)) := by
  rw [submitAll_spec ts freshWorker]
  simp only [freshWorker]
  rw [List.nil_append, mkTasks_ids]
  refine ⟨?_, pairwise_lt_range' ts.length 0⟩
  exact (pairwise_lt_range' ts.length 0).imp (fun h => Nat.ne_of_lt h)

/-- A sample task used in concrete witnesses. -/
def demoTask : Task := { name := "my_plan" }

/-- C3: `submit_task` assigns an id carried by no existing task, stores a
TrackableTask whose tracking fields are exactly `is_pending = true`,
`is_complete = false`, `errors = []` — so an immediate `get_task_by_id` on
the returned id yields that snapshot — and performs no execution: worker
state, active task and event log are untouched.  The hypothesis is the
registry invariant (every stored id is below the fresh counter). -/
theorem C3_submit_snapshot (w : Worker) (t : Task)
    (hinv : ∀ tt ∈ w.registry, tt.task_id < w.nextId) :
    (∀ tt ∈ w.registry, tt.task_id ≠ (submit_task w t).1) ∧
    get_task_by_id (submit_task w t).2 (submit_task w t).1 =
      .ok { task_id := (submit_task w t).1, task := t,
            is_complete := false, is_pending := true, errors := [] } ∧
    (submit_task w t).2.queue = w.queue ++ [(submit_task w t).1] ∧
    (submit_task w t).2.state = w.state ∧
    (submit_task w t).2.activeTask = w.activeTask ∧
    (submit_task w t).2.events = w.events := by
  have hfresh : ∀ tt ∈ w.registry, tt.task_id ≠ w.nextId := by
    intro tt htt
    exact Nat.ne_of_lt (hinv tt htt)
  refine ⟨hfresh, ?_, rfl, rfl, rfl, rfl⟩
  have hmiss : ∀ tt ∈ w.registry, (tt.task_id == w.nextId) = false := by
    intro tt htt
    simpa using hfresh tt htt
  simp only [get_task_by_id, submit_task]
  rw [find?_append_right _ _ _ hmiss]
  simp [List.find?]

/-- C3 witness: submitting to the fresh worker. -/
theorem C3_submit_snapshot_witness :
    (∀ tt ∈ freshWorker.registry, tt.task_id < freshWorker.nextId) ∧
    get_task_by_id (submit_task freshWorker demoTask).2
        (submit_task freshWorker demoTask).1 =
      .ok { task_id := (submit_task freshWorker demoTask).1, task := demoTask,
            is_complete := false, is_pending := true, errors := [] } :=
  ⟨by simp [freshWorker],
   (C3_submit_snapshot freshWorker demoTask (by simp [freshWorker])).2.1⟩

/-! ## Claims about the service interface lifecycle -/

/-- A context in which no worker has been started. -/
def stoppedCtx : ServiceContext := {}

/-- A context in which a worker has been started. -/
def startedCtx : ServiceContext := { worker := some freshWorker }

/-- C10: every service-interface operation is guarded by an initialisation
check: `start_worker` fails with InitialisationException when a worker is
already started (and succeeds otherwise), while `stop_worker` and queries
such as `get_active_task` fail with InitialisationException when no worker
has been started. -/
theorem C10_initialisation_guard (c : ServiceContext) :
    (c.worker ≠ none → start_worker c = .error .InitialisationException) ∧
    (c.worker = none →
      stop_worker c = .error .InitialisationException ∧
      get_active_task c = .error .InitialisationException ∧
      start_worker c = .ok { worker := some freshWorker }) := by
  constructor
  · intro hne
    match h : c.worker with
    | some w => simp [start_worker, h]
    | none => exact absurd h hne
  · intro heq
    simp [stop_worker, get_active_task, start_worker, heq]

/-- C10 witness: the concrete started and stopped contexts. -/
theorem C10_initialisation_guard_witness :
    startedCtx.worker ≠ none ∧
    start_worker startedCtx = .error .InitialisationException ∧
    stoppedCtx.worker = none ∧
    stop_worker stoppedCtx = .error .InitialisationException :=
  ⟨by simp [startedCtx],
   (C10_initialisation_guard startedCtx).1 (by simp [startedCtx]),
   rfl,
   ((C10_initialisation_guard stoppedCtx).2 rfl).1⟩

/-! ## Claims about the control channel -/

/-- C7: `pause(immediate)` requires Running: called while Idle it fails with
InvalidState (returning no new worker, so the state is unchanged); called
while already Paused it is an error-free no-op; called while Running it
succeeds, settles in Paused keeping the active task, and passes the
immediate flag through to the executor unchanged. -/
theorem C7_pause_requires_running (w : Worker) (defer : Bool) :
    (w.state = .Idle → pause w defer = .error .InvalidState) ∧
    (w.state = .Paused → pause w defer = .ok w) ∧
    (w.state = .Running →
      ∃ w2, pause w defer = .ok w2 ∧ w2.state = .Paused ∧
        w2.activeTask = w.activeTask ∧ w2.registry = w.registry ∧
        w2.executorPauseSignals = w.executorPauseSignals ++ [defer]) := by
  refine ⟨fun h => ?_, fun h => ?_, fun h => ?_⟩
  · simp [pause, h]
  · simp [pause, h]
  · refine ⟨{ w with
                state := .Paused,
                executorPauseSignals := w.executorPauseSignals ++ [defer],
                events := w.events ++ [{ state := .Paused, task_id := w.activeTask }] },
      ?_, rfl, rfl, rfl, rfl⟩
    simp [pause, h]

/-- A worker that is Running task 0, used in concrete witnesses. -/
def runningWorker : Worker :=
  { registry := [{ task_id := 0, task := demoTask }],
    queue := [], state := .Running, activeTask := some 0, nextId := 1 }

/-- C7 witness: pause on the fresh (Idle) worker and on a Running worker. -/
theorem C7_pause_requires_running_witness :
    freshWorker.state = .Idle ∧
    pause freshWorker true = .error .InvalidState ∧
    runningWorker.state = .Running ∧
    ∃ w2, pause runningWorker false = .ok w2 ∧ w2.state = .Paused ∧
      w2.activeTask = runningWorker.activeTask ∧
      w2.registry = runningWorker.registry ∧
      w2.executorPauseSignals = runningWorker.executorPauseSignals ++ [false] :=
  ⟨rfl, (C7_pause_requires_running freshWorker true).1 rfl, rfl,
   (C7_pause_requires_running runningWorker false).2.2 rfl⟩

/-- C4: whenever a task is active (worker Running or Paused),
`cancel_active_task fail reason` returns that task's id and marks the task
complete with `errors = [reason]` when `fail` and `errors = []` otherwise,
settling the worker in Idle; with no active task it fails with
NoActiveTask. -/
theorem C4_cancel_active (w : Worker) (fail : Bool) (reason : String) :
    (w.activeTask = none → cancel_active_task w fail reason = .error .NoActiveTask) ∧
    (∀ i, w.activeTask = some i → (w.state = .Running ∨ w.state = .Paused) →
      ∃ w2, cancel_active_task w fail reason = .ok (i, w2) ∧
        w2.state = .Idle ∧ w2.activeTask = none ∧
        ∀ t ∈ w2.registry, t.task_id = i →
          t.is_complete = true ∧ t.errors = (if fail then [reason] else [])) := by
  constructor
  · intro h
    simp [cancel_active_task, h]
  · intro i h _
    refine ⟨{ w with
                state := .Idle,
                activeTask := none,
                registry := markComplete w.registry i (if fail then [reason] else []),
                events := w.events ++
                  [{ state := .Idle, task_id := some i,
                     error := if fail then some reason else none }] },
      by simp [cancel_active_task, h], rfl, rfl, ?_⟩
    exact markComplete_mem w.registry i (if fail then [reason] else [])

/-- C4 witness: cancelling the Running worker's task with `fail = true`. -/
theorem C4_cancel_active_witness :
    runningWorker.activeTask = some 0 ∧ runningWorker.state = .Running ∧
    ∃ w2, cancel_active_task runningWorker true "End of session" = .ok (0, w2) ∧
      w2.state = .Idle ∧ w2.activeTask = none ∧
      ∀ t ∈ w2.registry, t.task_id = 0 →
        t.is_complete = true ∧ t.errors = (if true then ["End of session"] else []) :=
  ⟨rfl, rfl,
   (C4_cancel_active runningWorker true "End of session").2 0 rfl (Or.inl rfl)⟩

/-- C6: for a stored task, `clear_task` succeeds — removing the task, so that
`get_task_by_id` subsequently fails with NotFound — exactly when the task's
derived status is Pending or Complete, and fails with InvalidState when the
task is currently active (status Running). -/
theorem C6_clear (w : Worker) (i : Nat) (t : TrackableTask)
    (hfind : w.registry.find? (fun x => x.task_id == i) = some t) :
    (taskStatus w t = .Running → clear_task w i = .error .InvalidState) ∧
    (taskStatus w t = .Pending ∨ taskStatus w t = .Complete →
      ∃ w2, clear_task w i = .ok (i, w2) ∧
        get_task_by_id w2 i = .error .NotFound ∧
        ∀ t2 ∈ w2.registry, t2.task_id ≠ i) := by
  have hid : t.task_id = i := by
    have := List.find?_some hfind
    simpa using this
  constructor
  · intro hrun
    have hact : (w.activeTask == some i) = true := by
      by_contra hfalse
      simp only [taskStatus, hid] at hrun
      rw [Bool.not_eq_true] at hfalse
      simp only [hfalse, Bool.false_eq_true, if_false] at hrun
      by_cases hc : t.is_complete <;> simp [hc] at hrun
    simp [clear_task, hfind, hact]
  · intro hstat
    have hact : (w.activeTask == some i) = false := by
      by_contra hfalse
      rw [Bool.not_eq_false] at hfalse
      have : taskStatus w t = .Running := by
        simp [taskStatus, hid, hfalse]
      rcases hstat with hs | hs <;> rw [hs] at this <;> cases this
    have hgone : ∀ t2 ∈ w.registry.filter (fun x => x.task_id != i),
        t2.task_id ≠ i := by
      intro t2 ht2
      have := (List.mem_filter.mp ht2).2
      simpa using this
    refine ⟨{ w with
                registry := w.registry.filter (fun x => x.task_id != i),
                queue := w.queue.filter (fun j => j != i) },
      by simp [clear_task, hfind, hact], ?_, hgone⟩
    have hnone : (w.registry.filter (fun x => x.task_id != i)).find?
        (fun x => x.task_id == i) = none := by
      rw [List.find?_eq_none]
      intro t2 ht2
      simpa using hgone t2 ht2
    simp [get_task_by_id, hnone]

/-- A worker holding one completed task and one running one. -/
def clearDemo : Worker :=
  { registry := [{ task_id := 0, task := demoTask, is_complete := true,
                   is_pending := false },
                 { task_id := 1, task := demoTask }],
    queue := [], state := .Running, activeTask := some 1, nextId := 2 }

/-- C6 witness: clearing the completed task 0 succeeds and makes it
NotFound; clearing the active task 1 fails with InvalidState. -/
theorem C6_clear_witness :
    clearDemo.registry.find? (fun x => x.task_id == 0) =
      some { task_id := 0, task := demoTask, is_complete := true,
             is_pending := false } ∧
    taskStatus clearDemo { task_id := 0, task := demoTask, is_complete := true,
                           is_pending := false } = .Complete ∧
    ∃ w2, clear_task clearDemo 0 = .ok (0, w2) ∧
      get_task_by_id w2 0 = .error .NotFound ∧
      ∀ t2 ∈ w2.registry, t2.task_id ≠ 0 :=
  ⟨by decide, by decide,
   (C6_clear clearDemo 0
       { task_id := 0, task := demoTask, is_complete := true, is_pending := false }
       (by decide)).2 (Or.inr (by decide))⟩

/-- An Idle worker with one pending task (id 0) at the head of the queue. -/
def beginDemo : Worker :=
  { registry := [{ task_id := 0, task := demoTask }],
    queue := [0], state := .Idle, activeTask := none, nextId := 1 }

/-- C2 counterexample: on an Idle worker with a queued task, begin with a
null/absent taskId does not dequeue or start the head task — it returns
the echo with the worker completely unchanged, still Idle, with task 0
still queued and nothing active (behaviour pinned by
`test_begin_task_no_task_id`: the worker is never called). -/
theorem C2_begin_counterexample :
    beginDemo.state = .Idle ∧ beginDemo.queue = [0] ∧
    interface_begin_task beginDemo { task_id := none } =
      .ok ({ task_id := none }, beginDemo) ∧
    (interface_begin_task beginDemo { task_id := none }).toOption.map
        (fun p => p.2.queue) = some [0] ∧
    (interface_begin_task beginDemo { task_id := none }).toOption.map
        (fun p => p.2.state) = some .Idle ∧
    (interface_begin_task beginDemo { task_id := none }).toOption.map
        (fun p => p.2.state) ≠ some .Running := by
  refine ⟨rfl, rfl, rfl, rfl, rfl, by decide⟩

/-- C2 (amended): begin with a given taskId starts that specific task — which
must currently be Pending — removing it from wherever it sits in the queue,
and fails with InvalidState when the worker is not Idle; begin with a
null/absent taskId performs no worker action at all and simply returns the
echo; every successful begin returns the (possibly unchanged) request
echo. -/
theorem C2_begin_amended (w : Worker) (wt : WorkerTask) :
    (wt.task_id = none → interface_begin_task w wt = .ok (wt, w)) ∧
    (∀ i, wt.task_id = some i → w.state ≠ .Idle →
      interface_begin_task w wt = .error .InvalidState) ∧
    (∀ i t, wt.task_id = some i → w.state = .Idle →
      w.registry.find? (fun x => x.task_id == i) = some t →
      taskStatus w t = .Pending →
      ∃ w2, interface_begin_task w wt = .ok (wt, w2) ∧
        w2.state = .Running ∧ w2.activeTask = some i ∧
        w2.queue = w.queue.filter (fun j => j != i) ∧ i ∉ w2.queue) ∧
    (∀ r w2, interface_begin_task w wt = .ok (r, w2) → r = wt) := by
  refine ⟨fun h => ?_, fun i h hs => ?_, fun i t h hs hfind hstat => ?_, ?_⟩
  · simp [interface_begin_task, h]
  · have : (w.state != .Idle) = true := by
      simpa using hs
    simp [interface_begin_task, h, begin_task, this, Except.map]
  · have hidle : (w.state != .Idle) = false := by
      simp [hs]
    have hpend : (taskStatus w t != .Pending) = false := by
      simp [hstat]
    refine ⟨{ w with
                queue := w.queue.filter (fun j => j != i),
                state := .Running,
                activeTask := some i,
                events := w.events ++ [{ state := .Running, task_id := some i }] },
      ?_, rfl, rfl, rfl, ?_⟩
    · simp [interface_begin_task, h, begin_task, hidle, hfind, hpend, Except.map]
    · intro hmem
      have := (List.mem_filter.mp hmem).2
      simp at this
  · intro r w2 hok
    cases hwt : wt.task_id with
    | none =>
      simp only [interface_begin_task, hwt] at hok
      cases hok
      rfl
    | some i =>
      simp only [interface_begin_task, hwt] at hok
      cases hb : begin_task w i with
      | error e => rw [hb] at hok; simp [Except.map] at hok
      | ok w3 =>
        rw [hb] at hok
        simp [Except.map] at hok
        exact hok.1.symm

/-- C2 witness for the amended claim: beginning task 0 on `beginDemo`
dequeues exactly it and starts it. -/
theorem C2_begin_amended_witness :
    beginDemo.state = .Idle ∧
    beginDemo.registry.find? (fun x => x.task_id == 0) =
      some { task_id := 0, task := demoTask } ∧
    taskStatus beginDemo { task_id := 0, task := demoTask } = .Pending ∧
    ∃ w2, interface_begin_task beginDemo { task_id := some 0 } =
        .ok ({ task_id := some 0 }, w2) ∧
      w2.state = .Running ∧ w2.activeTask = some 0 ∧
      w2.queue = beginDemo.queue.filter (fun j => j != 0) ∧ 0 ∉ w2.queue :=
  ⟨rfl, by decide, by decide,
   (C2_begin_amended beginDemo { task_id := some 0 }).2.2.1 0
     { task_id := 0, task := demoTask } rfl rfl (by decide) (by decide)⟩

/-- One Execution Loop cycle on an Idle worker with head task `i`: the head
is dequeued, the worker settles back in Idle with nothing active, the task
is marked complete with no errors, and exactly the Running-entry and
Idle-return events for `i` are appended, in that order. -/
theorem runOne_idle (w : Worker) (i : Nat) (rest : List Nat)
    (hs : w.state = .Idle) (hq : w.queue = i :: rest) :
    runOne execSuccess w =
      { w with
          queue := rest,
          state := .Idle,
          activeTask := none,
          registry := markComplete w.registry i [],
          events := w.events ++
            [{ state := .Running, task_id := some i },
             { state := .Idle, task_id := some i }] } := by
  rw [runOne, hq]
  simp only [hs, beq_self_eq_true, if_true]
  cases h : w.registry.find? (fun t => t.task_id == i) <;>
    simp [execSuccess, outcomeErrors, outcomeError, hq]

/-- Driving the loop for as many cycles as there are queued ids, starting
Idle, empties the queue, ends Idle, and appends exactly the FIFO trace of
the queued ids. -/
theorem runN_trace (q : List Nat) : ∀ w : Worker,
    w.state = .Idle → w.queue = q →
    (runN execSuccess q.length w).events = w.events ++ fifoTrace q ∧
    (runN execSuccess q.length w).state = .Idle ∧
    (runN execSuccess q.length w).queue = [] := by
  induction q with
  | nil =>
    intro w hs hq
    exact ⟨by simp [runN, fifoTrace], by simp [runN, hs], by simp [runN, hq]⟩
  | cons i rest ih =>
    intro w hs hq
    have hstep : runN execSuccess (i :: rest).length w =
        runN execSuccess rest.length (runOne execSuccess w) := rfl
    rw [hstep, runOne_idle w i rest hs hq]
    have h2 := ih { w with
        queue := rest,
        state := .Idle,
        activeTask := none,
        registry := markComplete w.registry i [],
        events := w.events ++
          [{ state := .Running, task_id := some i },
           { state := .Idle, task_id := some i }] } rfl rfl
    refine ⟨?_, h2.2.1, h2.2.2⟩
    rw [h2.1]
    simp [fifoTrace]

/-- C8: submitting any sequence of tasks (in particular A, B, C) with no
explicit begin call and letting the Execution Loop run, the worker executes
the tasks in FIFO submission order: the published events are exactly, for
each submitted task in order, one Running-entry event followed by one
Idle-return event — no event out of order, duplicated, or missing — after
which the queue is empty and the worker is Idle again. -/
theorem C8_fifo_events (ts : List Task) :
    (runN execSuccess ts.length (submitAll freshWorker ts)).events =
      fifoTrace (List.range ts.length) ∧
    (runN execSuccess ts.length (submitAll freshWorker ts)).state = .Idle ∧
    (runN execSuccess ts.length (submitAll freshWorker ts)).queue = [] := by
  have hsub := submitAll_spec ts freshWorker
  have hq : (submitAll freshWorker ts).queue = List.range' 0 ts.length := by
    rw [hsub]; simp [freshWorker]
  have hs : (submitAll freshWorker ts).state = .Idle := by
    rw [hsub]; rfl
  have hev : (submitAll freshWorker ts).events = [] := by
    rw [hsub]; rfl
  have h := runN_trace (List.range' 0 ts.length) (submitAll freshWorker ts) hs hq
  simp only [List.length_range'] at h
  refine ⟨?_, h.2.1, h.2.2⟩
  rw [h.1, hev, List.nil_append, List.range_eq_range']

end Blueapi
